import Mathlib

/-!
Verification of the film-look pixel shader of SilenceMonk/film-look-creator-for-obs.

The per-pixel kernel lives twice in the repository: embedded as a string in
src/film-look-filter.cpp (function mainImage) and as data/film_look.effect
(function pixel_shader).  The two bodies are textually identical except for
two points: the sampler state (Border with BorderColor=00000000 in the cpp
string, Clamp in the .effect file) and the pixel-size line
(pixel_size = 1.0 / uv_size in the cpp string, pixel_size = uv_size in the
.effect file).  We embed the common body once (filmLookShader), parametrised
by the sampling function and by the pixel size, and define the two variants
by instantiating those two points exactly as each source file does.

Shader floats are modelled as exact rationals; the transcendental library
functions sin, cos and pow, whose values the claims never depend on except
through hypotheses the spec itself states, are abstracted as an explicit
record of functions (MathOps) passed to the kernel.
-/

/-- A 2D vector of rationals (HLSL float2). -/
@[ext] structure Vec2 where
  x : ℚ
  y : ℚ
deriving DecidableEq

/-- An RGB color (HLSL float3). -/
@[ext] structure Color3 where
  r : ℚ
  g : ℚ
  b : ℚ
deriving DecidableEq

/-- An RGBA color (HLSL float4). -/
@[ext] structure Color4 where
  r : ℚ
  g : ℚ
  b : ℚ
  a : ℚ
deriving DecidableEq

/-- The rgb swizzle of a float4. -/
def Color4.rgb (c : Color4) : Color3 := ⟨c.r, c.g, c.b⟩

instance : Zero Color3 := ⟨⟨0, 0, 0⟩⟩
instance : Add Color3 := ⟨fun c d => ⟨c.r + d.r, c.g + d.g, c.b + d.b⟩⟩
instance : Mul Color3 := ⟨fun c d => ⟨c.r * d.r, c.g * d.g, c.b * d.b⟩⟩
instance : SMul ℚ Color3 := ⟨fun k c => ⟨k * c.r, k * c.g, k * c.b⟩⟩

@[simp] lemma Color3.zero_r : (0 : Color3).r = 0 := rfl
@[simp] lemma Color3.zero_g : (0 : Color3).g = 0 := rfl
@[simp] lemma Color3.zero_b : (0 : Color3).b = 0 := rfl
@[simp] lemma Color3.add_r (c d : Color3) : (c + d).r = c.r + d.r := rfl
@[simp] lemma Color3.add_g (c d : Color3) : (c + d).g = c.g + d.g := rfl
@[simp] lemma Color3.add_b (c d : Color3) : (c + d).b = c.b + d.b := rfl
@[simp] lemma Color3.mul_r (c d : Color3) : (c * d).r = c.r * d.r := rfl
@[simp] lemma Color3.mul_g (c d : Color3) : (c * d).g = c.g * d.g := rfl
@[simp] lemma Color3.mul_b (c d : Color3) : (c * d).b = c.b * d.b := rfl
@[simp] lemma Color3.smul_r (k : ℚ) (c : Color3) : (k • c).r = k * c.r := rfl
@[simp] lemma Color3.smul_g (k : ℚ) (c : Color3) : (k • c).g = k * c.g := rfl
@[simp] lemma Color3.smul_b (k : ℚ) (c : Color3) : (k • c).b = k * c.b := rfl

instance : AddCommMonoid Color3 where
  add_assoc a b c := by ext <;> simp <;> ring
  zero_add a := by ext <;> simp
  add_zero a := by ext <;> simp
  add_comm a b := by ext <;> simp <;> ring
  nsmul := nsmulRec

instance : Module ℚ Color3 where
  one_smul c := by ext <;> simp
  mul_smul k l c := by ext <;> simp <;> ring
  smul_zero k := by ext <;> simp
  smul_add k c d := by ext <;> simp <;> ring
  add_smul k l c := by ext <;> simp <;> ring
  zero_smul c := by ext <;> simp

/-- Componentwise division of a float3 by a scalar (HLSL `accum /= count`). -/
def Color3.divScalar (c : Color3) (k : ℚ) : Color3 := ⟨c.r / k, c.g / k, c.b / k⟩

/-- Componentwise addition of a broadcast scalar to a float3
    (HLSL `final_color += grain * grain_intensity`). -/
def Color3.addScalar (c : Color3) (k : ℚ) : Color3 := ⟨c.r + k, c.g + k, c.b + k⟩

/-- An input frame: colors addressable by continuous normalized coordinates.
    The image function already stands for the bilinearly filtered lookup. -/
abbrev Image := Vec2 → Color4

/-- The abstracted transcendental library functions used by the shader. -/
structure MathOps where
  sin : ℚ → ℚ
  cos : ℚ → ℚ
  pow : ℚ → ℚ → ℚ

/-- The uniform parameter block of the shader (every per-frame uniform except
    image, uv_size and elapsed_time, which are passed separately). -/
structure Params where
  contrast : ℚ
  teal_amount : ℚ
  orange_amount : ℚ
  bloom_intensity : ℚ
  bloom_threshold : ℚ
  bloom_radius : ℤ
  halation_intensity : ℚ
  halation_threshold : ℚ
  halation_radius : ℤ
  secondary_glow_intensity : ℚ
  secondary_glow_threshold : ℚ
  secondary_glow_radius : ℤ
  grain_intensity : ℚ
  shake_intensity : ℚ
  shake_speed : ℚ
deriving DecidableEq

/-- HLSL clamp(x, lo, hi) = min(max(x, lo), hi). -/
def clampQ (x lo hi : ℚ) : ℚ := min (max x lo) hi

/-- HLSL scalar lerp(a, b, t) = a + t * (b - a). -/
def lerpQ (a b t : ℚ) : ℚ := a + t * (b - a)

/-- HLSL componentwise lerp on float3. -/
def lerp3 (c d : Color3) (t : ℚ) : Color3 := ⟨lerpQ c.r d.r t, lerpQ c.g d.g t, lerpQ c.b d.b t⟩

/-- HLSL frac(x) = x - floor(x). -/
def frac (q : ℚ) : ℚ := q - (⌊q⌋ : ℚ)

/-- HLSL smoothstep(edge0, edge1, x): t = clamp((x-edge0)/(edge1-edge0),0,1);
    t*t*(3-2t).  (Works for descending edges edge0 > edge1 as well.) -/
def smoothstep (edge0 edge1 x : ℚ) : ℚ :=
  let t := clampQ ((x - edge0) / (edge1 - edge0)) 0 1
  t * t * (3 - 2 * t)

/-- dot(c, w) on float3. -/
def dot3 (c w : Color3) : ℚ := c.r * w.r + c.g * w.g + c.b * w.b

/-- The luma weights float3(0.299, 0.587, 0.114) used throughout the shader. -/
def lumaWeights : Color3 := ⟨0.299, 0.587, 0.114⟩

/-- BlendScreen(base, blend) = 1.0 - ((1.0 - base) * (1.0 - blend)), from both
    shader sources. -/
def blendScreen (base blend : Color3) : Color3 :=
  ⟨1 - (1 - base.r) * (1 - blend.r),
   1 - (1 - base.g) * (1 - blend.g),
   1 - (1 - base.b) * (1 - blend.b)⟩

/-- random(st) = frac(sin(dot(st.xy, float2(12.9898, 78.233))) * 43758.5453123),
    from both shader sources, with the library sin abstracted by ops. -/
def randomHash (ops : MathOps) (st : Vec2) : ℚ :=
  frac (ops.sin (st.x * 12.9898 + st.y * 78.233) * 43758.5453123)

/-- A sample coordinate is inside the unit square [0,1]^2. -/
abbrev insideUnit (v : Vec2) : Prop := 0 ≤ v.x ∧ v.x ≤ 1 ∧ 0 ≤ v.y ∧ v.y ≤ 1

/-- Modelled from the spec: the Border / BorderColor=00000000 sampler policy of
    the sampler_state in the cpp-embedded shader: any sample coordinate outside
    [0,1]^2 in either axis returns fully transparent black (0,0,0,0); inside,
    the (filtered) image lookup itself. -/
def sampleBorder (img : Image) (uv : Vec2) : Color4 :=
  if insideUnit uv then img uv else ⟨0, 0, 0, 0⟩

/-- Modelled from the graphics API semantics of the sampler_state declared in
    data/film_look.effect (AddressU = Clamp, AddressV = Clamp): each coordinate
    axis is clamped to [0,1] before the lookup, so out-of-range reads return
    the clamped edge pixel. -/
def sampleClamp (img : Image) (uv : Vec2) : Color4 :=
  img ⟨clampQ uv.x 0 1, clampQ uv.y 0 1⟩

/-- PART 0 of both shader bodies: the camera-shake offset. -/
def shakeOffset (ops : MathOps) (p : Params) (elapsed_time : ℚ) : Vec2 :=
  if 0 < p.shake_intensity then
    let time := elapsed_time * p.shake_speed
    let shake_x := (ops.sin (time * 1.3 + 0.5) + ops.sin (time * 2.7 + 1.2)) * 0.5
    let shake_y := (ops.cos (time * 1.7 - 0.8) + ops.cos (time * 3.1 - 0.3)) * 0.5
    ⟨shake_x * p.shake_intensity, shake_y * p.shake_intensity⟩
  else ⟨0, 0⟩

/-- The shaken sampling coordinate v_in.uv + shake_offset. -/
def shakenUV (ops : MathOps) (p : Params) (elapsed_time : ℚ) (uv : Vec2) : Vec2 :=
  ⟨uv.x + (shakeOffset ops p elapsed_time).x, uv.y + (shakeOffset ops p elapsed_time).y⟩

/-- The contrast step: pow(graded_color, float3(contrast, contrast, contrast)). -/
def contrastStage (ops : MathOps) (p : Params) (c : Color3) : Color3 :=
  ⟨ops.pow c.r p.contrast, ops.pow c.g p.contrast, ops.pow c.b p.contrast⟩

/-- PART 1 of both shader bodies: the color grading of the sampled rgb. -/
def gradeColor (ops : MathOps) (p : Params) (c : Color3) : Color3 :=
  let graded := contrastStage ops p c
  let luma := dot3 graded lumaWeights
  let graded := lerp3 graded ⟨0.7, 0.85, 1.0⟩ (smoothstep 0.5 1.0 luma * p.teal_amount)
  let graded := lerp3 graded ⟨1.0, 0.9, 0.7⟩ (smoothstep 0.4 0.0 luma * p.orange_amount)
  graded

/-- The loop bound: max(max(bloom_radius, halation_radius), secondary_glow_radius). -/
def maxRadiusForLoop (p : Params) : ℤ :=
  max (max p.bloom_radius p.halation_radius) p.secondary_glow_radius

/-- The integers -R, ..., R in loop order (empty when R < 0). -/
def rangeZ (R : ℤ) : List ℤ :=
  (List.range (2 * R + 1).toNat).map (fun i : ℕ => -R + (i : ℤ))

/-- The offsets visited by the double loop, in loop order: x outer, y inner,
    each from -R to R inclusive. -/
def scanOffsets (R : ℤ) : List (ℤ × ℤ) :=
  (rangeZ R).flatMap (fun x => (rangeZ R).map (fun y => (x, y)))

/-- sample_uv = shaken_uv + offset * pixel_size (componentwise). -/
def coordOf (shaken_uv pixel_size : Vec2) (xy : ℤ × ℤ) : Vec2 :=
  ⟨shaken_uv.x + (xy.1 : ℚ) * pixel_size.x, shaken_uv.y + (xy.2 : ℚ) * pixel_size.y⟩

/-- sample_color = image.Sample(textureSampler, sample_uv).rgb. -/
def sampleColorAt (smp : Image → Vec2 → Color4) (img : Image)
    (shaken_uv pixel_size : Vec2) (xy : ℤ × ℤ) : Color3 :=
  (smp img (coordOf shaken_uv pixel_size xy)).rgb

/-- The three per-pixel accumulators and sample counters of PART 2. -/
@[ext] structure GlowState where
  bloom_accum : Color3
  halation_accum : Color3
  secondary_glow_accum : Color3
  bloom_sample_count : ℚ
  halation_sample_count : ℚ
  secondary_glow_sample_count : ℚ
deriving DecidableEq

instance : Zero GlowState := ⟨⟨0, 0, 0, 0, 0, 0⟩⟩
instance : Add GlowState :=
  ⟨fun s t => ⟨s.bloom_accum + t.bloom_accum, s.halation_accum + t.halation_accum,
    s.secondary_glow_accum + t.secondary_glow_accum,
    s.bloom_sample_count + t.bloom_sample_count,
    s.halation_sample_count + t.halation_sample_count,
    s.secondary_glow_sample_count + t.secondary_glow_sample_count⟩⟩

@[simp] lemma GlowState.zero_ba : (0 : GlowState).bloom_accum = 0 := rfl
@[simp] lemma GlowState.zero_ha : (0 : GlowState).halation_accum = 0 := rfl
@[simp] lemma GlowState.zero_sa : (0 : GlowState).secondary_glow_accum = 0 := rfl
@[simp] lemma GlowState.zero_bc : (0 : GlowState).bloom_sample_count = 0 := rfl
@[simp] lemma GlowState.zero_hc : (0 : GlowState).halation_sample_count = 0 := rfl
@[simp] lemma GlowState.zero_sc : (0 : GlowState).secondary_glow_sample_count = 0 := rfl
@[simp] lemma GlowState.add_ba (s t : GlowState) :
    (s + t).bloom_accum = s.bloom_accum + t.bloom_accum := rfl
@[simp] lemma GlowState.add_ha (s t : GlowState) :
    (s + t).halation_accum = s.halation_accum + t.halation_accum := rfl
@[simp] lemma GlowState.add_sa (s t : GlowState) :
    (s + t).secondary_glow_accum = s.secondary_glow_accum + t.secondary_glow_accum := rfl
@[simp] lemma GlowState.add_bc (s t : GlowState) :
    (s + t).bloom_sample_count = s.bloom_sample_count + t.bloom_sample_count := rfl
@[simp] lemma GlowState.add_hc (s t : GlowState) :
    (s + t).halation_sample_count = s.halation_sample_count + t.halation_sample_count := rfl
@[simp] lemma GlowState.add_sc (s t : GlowState) :
    (s + t).secondary_glow_sample_count = s.secondary_glow_sample_count + t.secondary_glow_sample_count := rfl

instance : AddCommMonoid GlowState where
  add_assoc a b c := by ext <;> simp <;> ring
  zero_add a := by ext <;> simp
  add_zero a := by ext <;> simp
  add_comm a b := by ext <;> simp <;> ring
  nsmul := nsmulRec

/-- The bloom branch of the loop body. -/
def bloomUpdate (p : Params) (sample_color : Color3) (sample_luma : ℚ)
    (x y : ℤ) (st : GlowState) : GlowState :=
  if 0 < p.bloom_intensity ∧ |x| ≤ p.bloom_radius ∧ |y| ≤ p.bloom_radius then
    { st with
      bloom_accum := st.bloom_accum + smoothstep p.bloom_threshold 1.0 sample_luma • sample_color,
      bloom_sample_count := st.bloom_sample_count + 1 }
  else st

/-- The halation branch of the loop body (tint float3(1.0, 0.2, 0.1)). -/
def halationUpdate (p : Params) (sample_color : Color3) (sample_luma : ℚ)
    (x y : ℤ) (st : GlowState) : GlowState :=
  if 0 < p.halation_intensity ∧ |x| ≤ p.halation_radius ∧ |y| ≤ p.halation_radius then
    { st with
      halation_accum := st.halation_accum +
        smoothstep p.halation_threshold 1.0 sample_luma • (sample_color * ⟨1.0, 0.2, 0.1⟩),
      halation_sample_count := st.halation_sample_count + 1 }
  else st

/-- The secondary-glow branch of the loop body (tint float3(0.6, 0.8, 1.0)). -/
def secondaryGlowUpdate (p : Params) (sample_color : Color3) (sample_luma : ℚ)
    (x y : ℤ) (st : GlowState) : GlowState :=
  if 0 < p.secondary_glow_intensity ∧ |x| ≤ p.secondary_glow_radius ∧ |y| ≤ p.secondary_glow_radius then
    { st with
      secondary_glow_accum := st.secondary_glow_accum +
        smoothstep p.secondary_glow_threshold 1.0 sample_luma • (sample_color * ⟨0.6, 0.8, 1.0⟩),
      secondary_glow_sample_count := st.secondary_glow_sample_count + 1 }
  else st

/-- One iteration of the double loop of PART 2: sample once, then the three
    gated accumulations in source order. -/
def glowStep (smp : Image → Vec2 → Color4) (p : Params) (img : Image)
    (shaken_uv pixel_size : Vec2) (st : GlowState) (xy : ℤ × ℤ) : GlowState :=
  let sample_color := sampleColorAt smp img shaken_uv pixel_size xy
  let sample_luma := dot3 sample_color lumaWeights
  secondaryGlowUpdate p sample_color sample_luma xy.1 xy.2
    (halationUpdate p sample_color sample_luma xy.1 xy.2
      (bloomUpdate p sample_color sample_luma xy.1 xy.2 st))

/-- The whole PART 2 scan, from the zero-initialized accumulators. -/
def glowScan (smp : Image → Vec2 → Color4) (p : Params) (img : Image)
    (shaken_uv pixel_size : Vec2) : GlowState :=
  (scanOffsets (maxRadiusForLoop p)).foldl (glowStep smp p img shaken_uv pixel_size) 0

/-- The three guarded normalizations after the scan: each accumulator is
    divided by its own counter only when the counter is positive. -/
def normalizeGlow (st : GlowState) : GlowState :=
  let st := if 0 < st.bloom_sample_count then
    { st with bloom_accum := st.bloom_accum.divScalar st.bloom_sample_count } else st
  let st := if 0 < st.halation_sample_count then
    { st with halation_accum := st.halation_accum.divScalar st.halation_sample_count } else st
  let st := if 0 < st.secondary_glow_sample_count then
    { st with secondary_glow_accum := st.secondary_glow_accum.divScalar st.secondary_glow_sample_count } else st
  st

/-- PART 3, bloom: final_color += bloom_accum * bloom_intensity when gated on. -/
def compositeBloom (p : Params) (st : GlowState) (final : Color3) : Color3 :=
  if 0 < p.bloom_intensity then final + p.bloom_intensity • st.bloom_accum else final

/-- PART 3, halation: screen blend of halation_accum * halation_intensity when gated on. -/
def compositeHalation (p : Params) (st : GlowState) (final : Color3) : Color3 :=
  if 0 < p.halation_intensity then
    blendScreen final (p.halation_intensity • st.halation_accum) else final

/-- PART 3, secondary glow: screen blend of secondary_glow_accum * intensity when gated on. -/
def compositeSecondaryGlow (p : Params) (st : GlowState) (final : Color3) : Color3 :=
  if 0 < p.secondary_glow_intensity then
    blendScreen final (p.secondary_glow_intensity • st.secondary_glow_accum) else final

/-- The shared pixel-shader body of the two shader variants in the repository,
    parametrised by the sampling function (the only use of the sampler state)
    and the pixel size (the only line that differs between the two bodies). -/
def filmLookShader (smp : Image → Vec2 → Color4) (ops : MathOps) (p : Params)
    (img : Image) (pixel_size : Vec2) (elapsed_time : ℚ) (uv : Vec2) : Color4 :=
  let shaken_uv := shakenUV ops p elapsed_time uv
  let original_color := smp img shaken_uv
  let graded_color := gradeColor ops p original_color.rgb
  let st := normalizeGlow (glowScan smp p img shaken_uv pixel_size)
  let final_color := graded_color
  let final_color := compositeBloom p st final_color
  let final_color := compositeHalation p st final_color
  let final_color := compositeSecondaryGlow p st final_color
  let grain_seed_uv := Vec2.mk (shaken_uv.x + frac elapsed_time) (shaken_uv.y + frac elapsed_time)
  let grain := (randomHash ops grain_seed_uv - 0.5) * 2.0
  let final_color := final_color.addScalar (grain * p.grain_intensity)
  ⟨clampQ final_color.r 0 1, clampQ final_color.g 0 1, clampQ final_color.b 0 1,
   original_color.a⟩

/-- mainImage of the shader string embedded in src/film-look-filter.cpp:
    Border sampling, pixel_size = 1.0 / uv_size. -/
def mainImage (ops : MathOps) (p : Params) (img : Image) (uv_size : Vec2)
    (elapsed_time : ℚ) (uv : Vec2) : Color4 :=
  filmLookShader sampleBorder ops p img ⟨1 / uv_size.x, 1 / uv_size.y⟩ elapsed_time uv

/-- pixel_shader of data/film_look.effect: Clamp sampling,
    pixel_size = uv_size (no reciprocal). -/
def effectPixelShader (ops : MathOps) (p : Params) (img : Image) (uv_size : Vec2)
    (elapsed_time : ℚ) (uv : Vec2) : Color4 :=
  filmLookShader sampleClamp ops p img uv_size elapsed_time uv

/-! ### The scan as an additive fold -/

/-- The bloom summand: weight smoothstep(bloom_threshold, 1, luma) times the
    untinted sample color. -/
def bloomTerm (smp : Image → Vec2 → Color4) (p : Params) (img : Image)
    (sh px : Vec2) (xy : ℤ × ℤ) : Color3 :=
  smoothstep p.bloom_threshold 1.0 (dot3 (sampleColorAt smp img sh px xy) lumaWeights) •
    sampleColorAt smp img sh px xy

/-- The halation summand: weight times the sample tinted by (1.0, 0.2, 0.1). -/
def halationTerm (smp : Image → Vec2 → Color4) (p : Params) (img : Image)
    (sh px : Vec2) (xy : ℤ × ℤ) : Color3 :=
  smoothstep p.halation_threshold 1.0 (dot3 (sampleColorAt smp img sh px xy) lumaWeights) •
    (sampleColorAt smp img sh px xy * ⟨1.0, 0.2, 0.1⟩)

/-- The secondary-glow summand: weight times the sample tinted by (0.6, 0.8, 1.0). -/
def secondaryGlowTerm (smp : Image → Vec2 → Color4) (p : Params) (img : Image)
    (sh px : Vec2) (xy : ℤ × ℤ) : Color3 :=
  smoothstep p.secondary_glow_threshold 1.0 (dot3 (sampleColorAt smp img sh px xy) lumaWeights) •
    (sampleColorAt smp img sh px xy * ⟨0.6, 0.8, 1.0⟩)

/-- What one loop iteration adds to the six accumulator fields. -/
def glowDelta (smp : Image → Vec2 → Color4) (p : Params) (img : Image)
    (sh px : Vec2) (xy : ℤ × ℤ) : GlowState :=
  ⟨(if 0 < p.bloom_intensity ∧ |xy.1| ≤ p.bloom_radius ∧ |xy.2| ≤ p.bloom_radius then
      bloomTerm smp p img sh px xy else 0),
   (if 0 < p.halation_intensity ∧ |xy.1| ≤ p.halation_radius ∧ |xy.2| ≤ p.halation_radius then
      halationTerm smp p img sh px xy else 0),
   (if 0 < p.secondary_glow_intensity ∧ |xy.1| ≤ p.secondary_glow_radius ∧ |xy.2| ≤ p.secondary_glow_radius then
      secondaryGlowTerm smp p img sh px xy else 0),
   (if 0 < p.bloom_intensity ∧ |xy.1| ≤ p.bloom_radius ∧ |xy.2| ≤ p.bloom_radius then 1 else 0),
   (if 0 < p.halation_intensity ∧ |xy.1| ≤ p.halation_radius ∧ |xy.2| ≤ p.halation_radius then 1 else 0),
   (if 0 < p.secondary_glow_intensity ∧ |xy.1| ≤ p.secondary_glow_radius ∧ |xy.2| ≤ p.secondary_glow_radius then 1 else 0)⟩

lemma glowStep_eq_add (smp : Image → Vec2 → Color4) (p : Params) (img : Image)
    (sh px : Vec2) (st : GlowState) (xy : ℤ × ℤ) :
    glowStep smp p img sh px st xy = st + glowDelta smp p img sh px xy := by
  unfold glowStep glowDelta bloomUpdate halationUpdate secondaryGlowUpdate
    bloomTerm halationTerm secondaryGlowTerm
  by_cases hb : 0 < p.bloom_intensity ∧ |xy.1| ≤ p.bloom_radius ∧ |xy.2| ≤ p.bloom_radius <;>
  by_cases hh : 0 < p.halation_intensity ∧ |xy.1| ≤ p.halation_radius ∧ |xy.2| ≤ p.halation_radius <;>
  by_cases hs : 0 < p.secondary_glow_intensity ∧ |xy.1| ≤ p.secondary_glow_radius ∧ |xy.2| ≤ p.secondary_glow_radius <;>
  simp only [hb, hh, hs, if_pos, if_neg, not_false_iff, ite_true, ite_false] <;>
  ext <;> simp

lemma foldl_glowStep_eq_sum (smp : Image → Vec2 → Color4) (p : Params) (img : Image)
    (sh px : Vec2) (l : List (ℤ × ℤ)) :
    ∀ st : GlowState, l.foldl (glowStep smp p img sh px) st
      = st + (l.map (glowDelta smp p img sh px)).sum := by
  induction l with
  | nil => intro st; simp
  | cons xy l ih =>
      intro st
      rw [List.foldl_cons, ih, glowStep_eq_add, List.map_cons, List.sum_cons, add_assoc]

lemma glowScan_eq_sum (smp : Image → Vec2 → Color4) (p : Params) (img : Image)
    (sh px : Vec2) :
    glowScan smp p img sh px
      = ((scanOffsets (maxRadiusForLoop p)).map (glowDelta smp p img sh px)).sum := by
  unfold glowScan
  rw [foldl_glowStep_eq_sum, zero_add]

lemma sum_proj_bloom_accum (L : List GlowState) :
    L.sum.bloom_accum = (L.map GlowState.bloom_accum).sum := by
  induction L with
  | nil => simp
  | cons s L ih => simp [List.sum_cons, ih]

lemma sum_proj_halation_accum (L : List GlowState) :
    L.sum.halation_accum = (L.map GlowState.halation_accum).sum := by
  induction L with
  | nil => simp
  | cons s L ih => simp [List.sum_cons, ih]

lemma sum_proj_secondary_glow_accum (L : List GlowState) :
    L.sum.secondary_glow_accum = (L.map GlowState.secondary_glow_accum).sum := by
  induction L with
  | nil => simp
  | cons s L ih => simp [List.sum_cons, ih]

lemma sum_proj_bloom_count (L : List GlowState) :
    L.sum.bloom_sample_count = (L.map GlowState.bloom_sample_count).sum := by
  induction L with
  | nil => simp
  | cons s L ih => simp [List.sum_cons, ih]

lemma sum_proj_halation_count (L : List GlowState) :
    L.sum.halation_sample_count = (L.map GlowState.halation_sample_count).sum := by
  induction L with
  | nil => simp
  | cons s L ih => simp [List.sum_cons, ih]

lemma sum_proj_secondary_glow_count (L : List GlowState) :
    L.sum.secondary_glow_sample_count = (L.map GlowState.secondary_glow_sample_count).sum := by
  induction L with
  | nil => simp
  | cons s L ih => simp [List.sum_cons, ih]

/-! ### The offset lists as interval sums -/

lemma mem_rangeZ {R x : ℤ} : x ∈ rangeZ R ↔ -R ≤ x ∧ x ≤ R := by
  unfold rangeZ
  simp only [List.mem_map, List.mem_range]
  constructor
  · rintro ⟨i, hi, rfl⟩
    omega
  · intro h
    exact ⟨(x + R).toNat, by omega, by omega⟩

lemma mem_scanOffsets {R : ℤ} {xy : ℤ × ℤ} :
    xy ∈ scanOffsets R ↔ -R ≤ xy.1 ∧ xy.1 ≤ R ∧ -R ≤ xy.2 ∧ xy.2 ≤ R := by
  rcases xy with ⟨a, b⟩
  unfold scanOffsets
  simp only [List.mem_flatMap, List.mem_map, mem_rangeZ, Prod.mk.injEq]
  constructor
  · rintro ⟨x, hx, y, hy, hxa, hyb⟩
    subst hxa; subst hyb
    exact ⟨hx.1, hx.2, hy.1, hy.2⟩
  · rintro ⟨h1, h2, h3, h4⟩
    exact ⟨a, ⟨h1, h2⟩, b, ⟨h3, h4⟩, rfl, rfl⟩

lemma sum_map_range {M : Type} [AddCommMonoid M] (n : ℕ) (f : ℕ → M) :
    ((List.range n).map f).sum = ∑ i ∈ Finset.range n, f i := by
  induction n with
  | zero => simp
  | succ n ih =>
      rw [List.range_succ, List.map_append, List.sum_append, Finset.sum_range_succ, ih]
      simp

lemma Icc_eq_range_map (R : ℤ) :
    Finset.Icc (-R) R
      = (Finset.range (2 * R + 1).toNat).map
          ⟨fun i : ℕ => -R + (i : ℤ), fun a b h => by
            have h2 : -R + (a : ℤ) = -R + (b : ℤ) := h
            omega⟩ := by
  ext x
  simp only [Finset.mem_Icc, Finset.mem_map, Finset.mem_range, Function.Embedding.coeFn_mk]
  constructor
  · intro h
    exact ⟨(x + R).toNat, by omega, by omega⟩
  · rintro ⟨i, hi, rfl⟩
    omega

lemma sum_map_rangeZ {M : Type} [AddCommMonoid M] (R : ℤ) (f : ℤ → M) :
    ((rangeZ R).map f).sum = ∑ x ∈ Finset.Icc (-R) R, f x := by
  unfold rangeZ
  rw [List.map_map, sum_map_range, Icc_eq_range_map, Finset.sum_map]
  simp [Function.comp]

lemma sum_map_flatMap {M α β : Type} [AddCommMonoid M] (l : List α) (g : α → List β) (f : β → M) :
    ((l.flatMap g).map f).sum = (l.map (fun a => ((g a).map f).sum)).sum := by
  induction l with
  | nil => simp
  | cons a l ih => simp [List.flatMap_cons, List.map_append, List.sum_append, ih]

lemma sum_map_scanOffsets {M : Type} [AddCommMonoid M] (R : ℤ) (f : ℤ × ℤ → M) :
    ((scanOffsets R).map f).sum
      = ∑ x ∈ Finset.Icc (-R) R, ∑ y ∈ Finset.Icc (-R) R, f (x, y) := by
  unfold scanOffsets
  rw [sum_map_flatMap, sum_map_rangeZ]
  refine Finset.sum_congr rfl (fun x _ => ?_)
  rw [List.map_map, sum_map_rangeZ]
  simp [Function.comp]

lemma sum_Icc_ite1 {M : Type} [AddCommMonoid M] (R r : ℤ) (hrR : r ≤ R) (g : ℤ → M) :
    (∑ x ∈ Finset.Icc (-R) R, if |x| ≤ r then g x else 0) = ∑ x ∈ Finset.Icc (-r) r, g x := by
  have h1 : ∀ x : ℤ, (|x| ≤ r) ↔ x ∈ Finset.Icc (-r) r := by
    intro x
    rw [Finset.mem_Icc, abs_le]
  rw [Finset.sum_congr rfl (fun x _ => if_congr (h1 x) rfl rfl)]
  rw [Finset.sum_ite_mem]
  congr 1
  rw [Finset.inter_eq_right]
  exact Finset.Icc_subset_Icc (by omega) (by omega)

lemma sum_Icc_ite {M : Type} [AddCommMonoid M] (R r : ℤ) (hrR : r ≤ R) (f : ℤ × ℤ → M) :
    (∑ x ∈ Finset.Icc (-R) R, ∑ y ∈ Finset.Icc (-R) R,
      if |x| ≤ r ∧ |y| ≤ r then f (x, y) else 0)
      = ∑ x ∈ Finset.Icc (-r) r, ∑ y ∈ Finset.Icc (-r) r, f (x, y) := by
  have key : ∀ x : ℤ, (∑ y ∈ Finset.Icc (-R) R, if |x| ≤ r ∧ |y| ≤ r then f (x, y) else 0)
      = if |x| ≤ r then (∑ y ∈ Finset.Icc (-r) r, f (x, y)) else 0 := by
    intro x
    by_cases hx : |x| ≤ r
    · rw [if_pos hx, ← sum_Icc_ite1 R r hrR (fun y => f (x, y))]
      exact Finset.sum_congr rfl (fun y _ => by simp [hx])
    · rw [if_neg hx]
      exact Finset.sum_eq_zero (fun y _ => by simp [hx])
  rw [Finset.sum_congr rfl (fun x _ => key x), sum_Icc_ite1 R r hrR]

/-! ### Normalization projections -/

lemma normalizeGlow_bloom_accum (st : GlowState) :
    (normalizeGlow st).bloom_accum
      = if 0 < st.bloom_sample_count then st.bloom_accum.divScalar st.bloom_sample_count
        else st.bloom_accum := by
  unfold normalizeGlow
  by_cases h1 : 0 < st.bloom_sample_count <;>
  by_cases h2 : 0 < st.halation_sample_count <;>
  by_cases h3 : 0 < st.secondary_glow_sample_count <;>
  simp [h1, h2, h3]

lemma normalizeGlow_halation_accum (st : GlowState) :
    (normalizeGlow st).halation_accum
      = if 0 < st.halation_sample_count then st.halation_accum.divScalar st.halation_sample_count
        else st.halation_accum := by
  unfold normalizeGlow
  by_cases h1 : 0 < st.bloom_sample_count <;>
  by_cases h2 : 0 < st.halation_sample_count <;>
  by_cases h3 : 0 < st.secondary_glow_sample_count <;>
  simp [h1, h2, h3]

lemma normalizeGlow_secondary_glow_accum (st : GlowState) :
    (normalizeGlow st).secondary_glow_accum
      = if 0 < st.secondary_glow_sample_count then
          st.secondary_glow_accum.divScalar st.secondary_glow_sample_count
        else st.secondary_glow_accum := by
  unfold normalizeGlow
  by_cases h1 : 0 < st.bloom_sample_count <;>
  by_cases h2 : 0 < st.halation_sample_count <;>
  by_cases h3 : 0 < st.secondary_glow_sample_count <;>
  simp [h1, h2, h3]

lemma bloom_radius_le_max (p : Params) : p.bloom_radius ≤ maxRadiusForLoop p :=
  le_trans (le_max_left _ _) (le_max_left _ _)

lemma halation_radius_le_max (p : Params) : p.halation_radius ≤ maxRadiusForLoop p :=
  le_trans (le_max_right _ _) (le_max_left _ _)

lemma secondary_glow_radius_le_max (p : Params) : p.secondary_glow_radius ≤ maxRadiusForLoop p :=
  le_max_right _ _

/-! ### Per-effect characterizations of the scan -/

lemma glowScan_bloom_accum_eq (smp : Image → Vec2 → Color4) (p : Params) (img : Image)
    (sh px : Vec2) (hI : 0 < p.bloom_intensity) :
    (glowScan smp p img sh px).bloom_accum
      = ∑ x ∈ Finset.Icc (-p.bloom_radius) p.bloom_radius,
          ∑ y ∈ Finset.Icc (-p.bloom_radius) p.bloom_radius, bloomTerm smp p img sh px (x, y) := by
  rw [glowScan_eq_sum, sum_proj_bloom_accum, List.map_map]
  have hfun : (GlowState.bloom_accum ∘ glowDelta smp p img sh px)
      = fun xy : ℤ × ℤ => if |xy.1| ≤ p.bloom_radius ∧ |xy.2| ≤ p.bloom_radius then
          bloomTerm smp p img sh px xy else 0 := by
    funext xy
    simp [glowDelta, hI, Function.comp]
  rw [hfun, sum_map_scanOffsets, sum_Icc_ite _ _ (bloom_radius_le_max p)]

lemma glowScan_halation_accum_eq (smp : Image → Vec2 → Color4) (p : Params) (img : Image)
    (sh px : Vec2) (hI : 0 < p.halation_intensity) :
    (glowScan smp p img sh px).halation_accum
      = ∑ x ∈ Finset.Icc (-p.halation_radius) p.halation_radius,
          ∑ y ∈ Finset.Icc (-p.halation_radius) p.halation_radius, halationTerm smp p img sh px (x, y) := by
  rw [glowScan_eq_sum, sum_proj_halation_accum, List.map_map]
  have hfun : (GlowState.halation_accum ∘ glowDelta smp p img sh px)
      = fun xy : ℤ × ℤ => if |xy.1| ≤ p.halation_radius ∧ |xy.2| ≤ p.halation_radius then
          halationTerm smp p img sh px xy else 0 := by
    funext xy
    simp [glowDelta, hI, Function.comp]
  rw [hfun, sum_map_scanOffsets, sum_Icc_ite _ _ (halation_radius_le_max p)]

lemma glowScan_secondary_glow_accum_eq (smp : Image → Vec2 → Color4) (p : Params) (img : Image)
    (sh px : Vec2) (hI : 0 < p.secondary_glow_intensity) :
    (glowScan smp p img sh px).secondary_glow_accum
      = ∑ x ∈ Finset.Icc (-p.secondary_glow_radius) p.secondary_glow_radius,
          ∑ y ∈ Finset.Icc (-p.secondary_glow_radius) p.secondary_glow_radius,
            secondaryGlowTerm smp p img sh px (x, y) := by
  rw [glowScan_eq_sum, sum_proj_secondary_glow_accum, List.map_map]
  have hfun : (GlowState.secondary_glow_accum ∘ glowDelta smp p img sh px)
      = fun xy : ℤ × ℤ => if |xy.1| ≤ p.secondary_glow_radius ∧ |xy.2| ≤ p.secondary_glow_radius then
          secondaryGlowTerm smp p img sh px xy else 0 := by
    funext xy
    simp [glowDelta, hI, Function.comp]
  rw [hfun, sum_map_scanOffsets, sum_Icc_ite _ _ (secondary_glow_radius_le_max p)]

lemma sum_Icc_ite_one (R r : ℤ) (hrR : r ≤ R) :
    (∑ x ∈ Finset.Icc (-R) R, ∑ y ∈ Finset.Icc (-R) R,
      if |x| ≤ r ∧ |y| ≤ r then (1 : ℚ) else 0)
      = ∑ x ∈ Finset.Icc (-r) r, ∑ y ∈ Finset.Icc (-r) r, (1 : ℚ) :=
  sum_Icc_ite R r hrR (fun _ => (1 : ℚ))

lemma card_cast_Icc (r : ℤ) (hr : 0 ≤ r) :
    ((Finset.Icc (-r) r).card : ℚ) = 2 * (r : ℚ) + 1 := by
  rw [Int.card_Icc]
  have h1 : ((r + 1 - -r).toNat : ℤ) = 2 * r + 1 := by omega
  exact_mod_cast h1

lemma glowScan_bloom_count_eq (smp : Image → Vec2 → Color4) (p : Params) (img : Image)
    (sh px : Vec2) (hI : 0 < p.bloom_intensity) (hr : 0 ≤ p.bloom_radius) :
    (glowScan smp p img sh px).bloom_sample_count = (2 * (p.bloom_radius : ℚ) + 1) ^ 2 := by
  rw [glowScan_eq_sum, sum_proj_bloom_count, List.map_map]
  have hfun : (GlowState.bloom_sample_count ∘ glowDelta smp p img sh px)
      = fun xy : ℤ × ℤ => if |xy.1| ≤ p.bloom_radius ∧ |xy.2| ≤ p.bloom_radius then (1 : ℚ) else 0 := by
    funext xy
    simp [glowDelta, hI, Function.comp]
  rw [hfun, sum_map_scanOffsets, sum_Icc_ite_one _ _ (bloom_radius_le_max p)]
  simp only [Finset.sum_const, nsmul_eq_mul, mul_one]
  rw [card_cast_Icc _ hr]
  ring

lemma glowScan_halation_count_eq (smp : Image → Vec2 → Color4) (p : Params) (img : Image)
    (sh px : Vec2) (hI : 0 < p.halation_intensity) (hr : 0 ≤ p.halation_radius) :
    (glowScan smp p img sh px).halation_sample_count = (2 * (p.halation_radius : ℚ) + 1) ^ 2 := by
  rw [glowScan_eq_sum, sum_proj_halation_count, List.map_map]
  have hfun : (GlowState.halation_sample_count ∘ glowDelta smp p img sh px)
      = fun xy : ℤ × ℤ => if |xy.1| ≤ p.halation_radius ∧ |xy.2| ≤ p.halation_radius then (1 : ℚ) else 0 := by
    funext xy
    simp [glowDelta, hI, Function.comp]
  rw [hfun, sum_map_scanOffsets, sum_Icc_ite_one _ _ (halation_radius_le_max p)]
  simp only [Finset.sum_const, nsmul_eq_mul, mul_one]
  rw [card_cast_Icc _ hr]
  ring

lemma glowScan_secondary_glow_count_eq (smp : Image → Vec2 → Color4) (p : Params) (img : Image)
    (sh px : Vec2) (hI : 0 < p.secondary_glow_intensity) (hr : 0 ≤ p.secondary_glow_radius) :
    (glowScan smp p img sh px).secondary_glow_sample_count
      = (2 * (p.secondary_glow_radius : ℚ) + 1) ^ 2 := by
  rw [glowScan_eq_sum, sum_proj_secondary_glow_count, List.map_map]
  have hfun : (GlowState.secondary_glow_sample_count ∘ glowDelta smp p img sh px)
      = fun xy : ℤ × ℤ => if |xy.1| ≤ p.secondary_glow_radius ∧ |xy.2| ≤ p.secondary_glow_radius then (1 : ℚ) else 0 := by
    funext xy
    simp [glowDelta, hI, Function.comp]
  rw [hfun, sum_map_scanOffsets, sum_Icc_ite_one _ _ (secondary_glow_radius_le_max p)]
  simp only [Finset.sum_const, nsmul_eq_mul, mul_one]
  rw [card_cast_Icc _ hr]
  ring

/-! ### Disabled or degenerate effects accumulate nothing -/

lemma list_sum_map_eq_zero {α M : Type} [AddCommMonoid M] (l : List α) (f : α → M)
    (h : ∀ x ∈ l, f x = 0) : (l.map f).sum = 0 := by
  induction l with
  | nil => simp
  | cons a l ih =>
      rw [List.map_cons, List.sum_cons, h a (List.mem_cons_self a l), zero_add]
      exact ih (fun x hx => h x (List.mem_cons_of_mem a hx))

lemma glowScan_bloom_zero (smp : Image → Vec2 → Color4) (p : Params) (img : Image)
    (sh px : Vec2) (h : p.bloom_intensity ≤ 0 ∨ p.bloom_radius < 0) :
    (glowScan smp p img sh px).bloom_accum = 0
      ∧ (glowScan smp p img sh px).bloom_sample_count = 0 := by
  have hcond : ∀ xy : ℤ × ℤ,
      ¬(0 < p.bloom_intensity ∧ |xy.1| ≤ p.bloom_radius ∧ |xy.2| ≤ p.bloom_radius) := by
    rintro xy ⟨h1, h2, h3⟩
    rcases h with h | h
    · exact absurd h1 (not_lt.mpr h)
    · have := abs_nonneg xy.1
      omega
  constructor
  · rw [glowScan_eq_sum, sum_proj_bloom_accum, List.map_map]
    exact list_sum_map_eq_zero _ _ (fun xy _ => by simp [Function.comp, glowDelta, hcond xy])
  · rw [glowScan_eq_sum, sum_proj_bloom_count, List.map_map]
    exact list_sum_map_eq_zero _ _ (fun xy _ => by simp [Function.comp, glowDelta, hcond xy])

lemma glowScan_halation_zero (smp : Image → Vec2 → Color4) (p : Params) (img : Image)
    (sh px : Vec2) (h : p.halation_intensity ≤ 0 ∨ p.halation_radius < 0) :
    (glowScan smp p img sh px).halation_accum = 0
      ∧ (glowScan smp p img sh px).halation_sample_count = 0 := by
  have hcond : ∀ xy : ℤ × ℤ,
      ¬(0 < p.halation_intensity ∧ |xy.1| ≤ p.halation_radius ∧ |xy.2| ≤ p.halation_radius) := by
    rintro xy ⟨h1, h2, h3⟩
    rcases h with h | h
    · exact absurd h1 (not_lt.mpr h)
    · have := abs_nonneg xy.1
      omega
  constructor
  · rw [glowScan_eq_sum, sum_proj_halation_accum, List.map_map]
    exact list_sum_map_eq_zero _ _ (fun xy _ => by simp [Function.comp, glowDelta, hcond xy])
  · rw [glowScan_eq_sum, sum_proj_halation_count, List.map_map]
    exact list_sum_map_eq_zero _ _ (fun xy _ => by simp [Function.comp, glowDelta, hcond xy])

lemma glowScan_secondary_glow_zero (smp : Image → Vec2 → Color4) (p : Params) (img : Image)
    (sh px : Vec2) (h : p.secondary_glow_intensity ≤ 0 ∨ p.secondary_glow_radius < 0) :
    (glowScan smp p img sh px).secondary_glow_accum = 0
      ∧ (glowScan smp p img sh px).secondary_glow_sample_count = 0 := by
  have hcond : ∀ xy : ℤ × ℤ,
      ¬(0 < p.secondary_glow_intensity ∧ |xy.1| ≤ p.secondary_glow_radius ∧ |xy.2| ≤ p.secondary_glow_radius) := by
    rintro xy ⟨h1, h2, h3⟩
    rcases h with h | h
    · exact absurd h1 (not_lt.mpr h)
    · have := abs_nonneg xy.1
      omega
  constructor
  · rw [glowScan_eq_sum, sum_proj_secondary_glow_accum, List.map_map]
    exact list_sum_map_eq_zero _ _ (fun xy _ => by simp [Function.comp, glowDelta, hcond xy])
  · rw [glowScan_eq_sum, sum_proj_secondary_glow_count, List.map_map]
    exact list_sum_map_eq_zero _ _ (fun xy _ => by simp [Function.comp, glowDelta, hcond xy])

/-! ### Sampler congruence -/

lemma glowDelta_congr (smp1 smp2 : Image → Vec2 → Color4) (p : Params) (img : Image)
    (sh px : Vec2) (xy : ℤ × ℤ)
    (h : smp1 img (coordOf sh px xy) = smp2 img (coordOf sh px xy)) :
    glowDelta smp1 p img sh px xy = glowDelta smp2 p img sh px xy := by
  unfold glowDelta bloomTerm halationTerm secondaryGlowTerm sampleColorAt
  rw [h]

lemma glowScan_congr (smp1 smp2 : Image → Vec2 → Color4) (p : Params) (img : Image)
    (sh px : Vec2)
    (h : ∀ xy ∈ scanOffsets (maxRadiusForLoop p),
      smp1 img (coordOf sh px xy) = smp2 img (coordOf sh px xy)) :
    glowScan smp1 p img sh px = glowScan smp2 p img sh px := by
  rw [glowScan_eq_sum, glowScan_eq_sum]
  congr 1
  exact List.map_congr_left (fun xy hxy => glowDelta_congr _ _ _ _ _ _ _ (h xy hxy))

lemma sampleBorder_eq_sampleClamp {img : Image} {w : Vec2} (h : insideUnit w) :
    sampleBorder img w = sampleClamp img w := by
  obtain ⟨h1, h2, h3, h4⟩ := h
  unfold sampleBorder sampleClamp
  rw [if_pos ⟨h1, h2, h3, h4⟩]
  congr 1
  ext
  · unfold clampQ
    rw [max_eq_left h1, min_eq_left h2]
  · unfold clampQ
    rw [max_eq_left h3, min_eq_left h4]

lemma filmLookShader_congr (smp1 smp2 : Image → Vec2 → Color4) (ops : MathOps) (p : Params)
    (img : Image) (px : Vec2) (t : ℚ) (uv : Vec2)
    (h0 : smp1 img (shakenUV ops p t uv) = smp2 img (shakenUV ops p t uv))
    (h : ∀ xy ∈ scanOffsets (maxRadiusForLoop p),
      smp1 img (coordOf (shakenUV ops p t uv) px xy) = smp2 img (coordOf (shakenUV ops p t uv) px xy)) :
    filmLookShader smp1 ops p img px t uv = filmLookShader smp2 ops p img px t uv := by
  simp only [filmLookShader]
  rw [h0, glowScan_congr smp1 smp2 p img _ px h]

/-! ### Facts about the descending smoothstep and small algebraic helpers -/

lemma smoothstep_down_one {x : ℚ} (h : x ≤ 0) : smoothstep 0.4 0.0 x = 1 := by
  have hv : (x - 0.4) / (0.0 - 0.4) = 1 - 2.5 * x := by ring
  simp only [smoothstep, clampQ]
  rw [hv]
  have h2 : (1 : ℚ) ≤ 1 - 2.5 * x := by linarith
  rw [max_eq_left (le_trans zero_le_one h2), min_eq_right h2]
  norm_num

lemma smoothstep_down_zero {x : ℚ} (h : 0.4 ≤ x) : smoothstep 0.4 0.0 x = 0 := by
  have hv : (x - 0.4) / (0.0 - 0.4) = 1 - 2.5 * x := by ring
  simp only [smoothstep, clampQ]
  rw [hv]
  have h2 : 1 - 2.5 * x ≤ (0 : ℚ) := by linarith
  rw [max_eq_right h2, min_eq_left zero_le_one]
  norm_num

lemma smoothstep_down_anti {x y : ℚ} (h : x ≤ y) :
    smoothstep 0.4 0.0 y ≤ smoothstep 0.4 0.0 x := by
  have hvx : (x - 0.4) / (0.0 - 0.4) = 1 - 2.5 * x := by ring
  have hvy : (y - 0.4) / (0.0 - 0.4) = 1 - 2.5 * y := by ring
  simp only [smoothstep, clampQ]
  rw [hvx, hvy]
  set a := min (max (1 - 2.5 * y) 0) 1 with ha
  set b := min (max (1 - 2.5 * x) 0) 1 with hb
  have hab : a ≤ b := by
    apply min_le_min ?_ le_rfl
    exact max_le_max (by linarith) le_rfl
  have ha0 : 0 ≤ a := le_min (le_max_right _ _) zero_le_one
  have hb1 : b ≤ 1 := min_le_right _ _
  have hb0 : 0 ≤ b := le_trans ha0 hab
  have ha1 : a ≤ 1 := le_trans hab hb1
  nlinarith [mul_nonneg (mul_nonneg (sub_nonneg.mpr hab) ha0) (sub_nonneg.mpr ha1),
    mul_nonneg (mul_nonneg (sub_nonneg.mpr hab) hb0) (sub_nonneg.mpr hb1),
    mul_nonneg (sub_nonneg.mpr hab) (sq_nonneg (a - b))]

lemma lerp3_zero (c d : Color3) : lerp3 c d 0 = c := by
  unfold lerp3 lerpQ
  ext <;> simp

lemma addScalar_zero (c : Color3) : c.addScalar 0 = c := by
  unfold Color3.addScalar
  ext <;> simp

lemma blendScreen_zero (c : Color3) : blendScreen c 0 = c := by
  unfold blendScreen
  ext <;> simp

lemma divScalar_smul (k : ℚ) (v : Color3) (hk : k ≠ 0) : (k • v).divScalar k = v := by
  unfold Color3.divScalar
  ext <;> simp <;> exact mul_div_cancel_left₀ _ hk

lemma sq_radius_pos (r : ℤ) (hr : 0 ≤ r) : 0 < (2 * (r : ℚ) + 1) ^ 2 := by
  have h1 : (0 : ℚ) ≤ (r : ℚ) := by exact_mod_cast hr
  nlinarith

/-! ### Concrete instances used by witnesses and counterexamples -/

/-- Concrete stand-ins for the library transcendentals: sin and cos constantly 1,
    pow x e = x (which satisfies pow x 1 = x, the only property the spec uses). -/
def opsA : MathOps := ⟨fun _ => 1, fun _ => 1, fun x _ => x⟩

/-- The all-off parameter set: contrast 1, every amount/intensity 0, radii 0. -/
def paramsZero : Params := ⟨1, 0, 0, 0, 0, 0, 0, 0, 0, 0, 0, 0, 0, 0, 0⟩

/-- Bloom only: intensity 1, threshold 0, radius 1, everything else off. -/
def pBloom : Params := ⟨1, 0, 0, 1, 0, 1, 0, 0, 0, 0, 0, 0, 0, 0, 0⟩

/-- A constant image, fully opaque. -/
def imgOpaque : Image := fun _ => ⟨0, 0, 0, 1⟩

/-- A constant red image. -/
def imgRed : Image := fun _ => ⟨1, 0, 0, 1⟩

/-- A constant image with distinct channel values inside [0,1]. -/
def imgGrayA : Image := fun _ => ⟨0.5, 0.25, 0.75, 1⟩

/-- A horizontal ramp image: every channel equals the x coordinate. -/
def imgRamp : Image := fun q => ⟨q.x, q.x, q.x, 1⟩

/-- The constant color of imgGrayA as a float4. -/
def grayAColor : Color4 := ⟨0.5, 0.25, 0.75, 1⟩

/- Core marks the arithmetic on Rat irreducible; re-enable unfolding so that
concrete evaluations can be checked by decide. -/
unseal Rat.add Rat.mul Rat.sub Rat.inv Rat.ofScientific Nat.gcd

/-! ### Claims -/

/-- C5: the Shake Offset Generator returns exactly (0,0) when shake_intensity
is not positive; otherwise, with t = elapsed_time * shake_speed, it returns
offset.x = 0.5*(sin(1.3t+0.5)+sin(2.7t+1.2))*shake_intensity and
offset.y = 0.5*(cos(1.7t-0.8)+cos(3.1t-0.3))*shake_intensity, and the whole
pixel shader samples exactly as the unshaken pipeline started at
base_uv + offset. -/
theorem claim_C5_shake_offset (ops : MathOps) (p : Params) (elapsed_time : ℚ) :
    (p.shake_intensity ≤ 0 → shakeOffset ops p elapsed_time = ⟨0, 0⟩)
    ∧ (0 < p.shake_intensity →
        shakeOffset ops p elapsed_time
          = ⟨0.5 * (ops.sin (1.3 * (elapsed_time * p.shake_speed) + 0.5)
                + ops.sin (2.7 * (elapsed_time * p.shake_speed) + 1.2)) * p.shake_intensity,
             0.5 * (ops.cos (1.7 * (elapsed_time * p.shake_speed) - 0.8)
                + ops.cos (3.1 * (elapsed_time * p.shake_speed) - 0.3)) * p.shake_intensity⟩)
    ∧ (∀ (img : Image) (uv_size uv : Vec2),
        mainImage ops p img uv_size elapsed_time uv
          = mainImage ops { p with shake_intensity := 0 } img uv_size elapsed_time
              (shakenUV ops p elapsed_time uv)) := by
  refine ⟨fun h => ?_, fun h => ?_, fun img uv_size uv => ?_⟩
  · unfold shakeOffset
    rw [if_neg (not_lt.mpr h)]
  · have e1 : elapsed_time * p.shake_speed * 1.3 + 0.5
        = 1.3 * (elapsed_time * p.shake_speed) + 0.5 := by ring
    have e2 : elapsed_time * p.shake_speed * 2.7 + 1.2
        = 2.7 * (elapsed_time * p.shake_speed) + 1.2 := by ring
    have e3 : elapsed_time * p.shake_speed * 1.7 - 0.8
        = 1.7 * (elapsed_time * p.shake_speed) - 0.8 := by ring
    have e4 : elapsed_time * p.shake_speed * 3.1 - 0.3
        = 3.1 * (elapsed_time * p.shake_speed) - 0.3 := by ring
    unfold shakeOffset
    rw [if_pos h]
    ext
    · show (ops.sin (elapsed_time * p.shake_speed * 1.3 + 0.5)
          + ops.sin (elapsed_time * p.shake_speed * 2.7 + 1.2)) * 0.5 * p.shake_intensity = _
      rw [e1, e2]
      ring
    · show (ops.cos (elapsed_time * p.shake_speed * 1.7 - 0.8)
          + ops.cos (elapsed_time * p.shake_speed * 3.1 - 0.3)) * 0.5 * p.shake_intensity = _
      rw [e3, e4]
      ring
  · have h0 : shakeOffset ops ({ p with shake_intensity := 0 }) elapsed_time = ⟨0, 0⟩ := by
      simp [shakeOffset]
    have hsh : ∀ w : Vec2, shakenUV ops ({ p with shake_intensity := 0 }) elapsed_time w = w := by
      intro w
      unfold shakenUV
      rw [h0]
      ext <;> simp
    unfold mainImage
    simp only [filmLookShader]
    rw [hsh]
    rfl

/-- Witness for C5 at concrete inputs: with shake_intensity = -1 the offset is
(0,0); with shake_intensity = 2, speed 0 and the stand-in sin = cos = 1 the
offset evaluates to (2, 2). -/
theorem claim_C5_witness :
    shakeOffset opsA { paramsZero with shake_intensity := -1 } 3 = ⟨0, 0⟩
    ∧ shakeOffset opsA { paramsZero with shake_intensity := 2 } 3 = ⟨2, 2⟩ := by
  constructor
  · exact (claim_C5_shake_offset opsA { paramsZero with shake_intensity := -1 } 3).1 (by decide)
  · have h := (claim_C5_shake_offset opsA { paramsZero with shake_intensity := 2 } 3).2.1 (by decide)
    rw [h]
    decide

/-- C1 (amended): the output alpha equals the alpha of the Border-sampled input
at the SHAKEN coordinate (base + shake offset), not at the unshaken base; the
two coincide whenever shake_intensity is not positive. -/
theorem claim_C1_alpha (ops : MathOps) (p : Params) (img : Image) (uv_size : Vec2)
    (elapsed_time : ℚ) (uv : Vec2) :
    (mainImage ops p img uv_size elapsed_time uv).a
      = (sampleBorder img (shakenUV ops p elapsed_time uv)).a
    ∧ (p.shake_intensity ≤ 0 →
        (mainImage ops p img uv_size elapsed_time uv).a = (sampleBorder img uv).a) := by
  have h1 : (mainImage ops p img uv_size elapsed_time uv).a
      = (sampleBorder img (shakenUV ops p elapsed_time uv)).a := rfl
  refine ⟨h1, fun h => ?_⟩
  have h0 : shakeOffset ops p elapsed_time = ⟨0, 0⟩ := by
    unfold shakeOffset
    rw [if_neg (not_lt.mpr h)]
  have h2 : shakenUV ops p elapsed_time uv = uv := by
    unfold shakenUV
    rw [h0]
    ext <;> simp
  rw [h1, h2]

/-- Witness for C1 (amended) at a concrete input with shake disabled. -/
theorem claim_C1_alpha_witness :
    (mainImage opsA paramsZero imgOpaque ⟨1, 1⟩ 0 ⟨0.5, 0.5⟩).a
      = (sampleBorder imgOpaque ⟨0.5, 0.5⟩).a :=
  (claim_C1_alpha opsA paramsZero imgOpaque ⟨1, 1⟩ 0 ⟨0.5, 0.5⟩).2 (by decide)

/-- C1 counterexample: with shake_intensity = 1 and the stand-in sin = cos = 1,
the shaken coordinate (1.5, 1.5) falls outside the frame, so the output alpha
is the border's 0 while the alpha of the unshaken base sample is 1: the claim
that output alpha always equals the unshaken base sample's alpha is false. -/
theorem claim_C1_counterexample :
    ¬ ((mainImage opsA { paramsZero with shake_intensity := 1 } imgOpaque ⟨1, 1⟩ 0 ⟨0.5, 0.5⟩).a
        = (sampleBorder imgOpaque ⟨0.5, 0.5⟩).a) := by decide

/-- C2 (amended): outside the unit square the cpp-embedded variant's Border
sampler returns fully transparent black, but the .effect variant's Clamp
sampler returns the image at the componentwise clamped coordinate (the edge
pixel): the border-transparent policy is not shared by all variants. -/
theorem claim_C2_border_policy (img : Image) (uv : Vec2) (h : ¬ insideUnit uv) :
    sampleBorder img uv = ⟨0, 0, 0, 0⟩
    ∧ sampleClamp img uv = img ⟨clampQ uv.x 0 1, clampQ uv.y 0 1⟩ := by
  refine ⟨?_, rfl⟩
  unfold sampleBorder
  rw [if_neg h]

/-- Witness for C2 (amended) at the spec's own boundary probe (-0.1, 0.5). -/
theorem claim_C2_witness :
    sampleBorder imgRed ⟨-0.1, 0.5⟩ = ⟨0, 0, 0, 0⟩
    ∧ sampleClamp imgRed ⟨-0.1, 0.5⟩ = imgRed ⟨clampQ (-0.1) 0 1, clampQ 0.5 0 1⟩ :=
  claim_C2_border_policy imgRed ⟨-0.1, 0.5⟩ (by decide)

/-- C2 counterexample: the .effect variant's Clamp sampler at (-0.1, 0.5) on a
constant red frame returns the red edge pixel, not transparent black, so the
claim that every variant returns (0,0,0,0) outside the unit square is false. -/
theorem claim_C2_counterexample :
    ¬ (sampleClamp imgRed ⟨-0.1, 0.5⟩ = ⟨0, 0, 0, 0⟩) := by decide

/-- C4: for every effect whose intensity equals 0, the shared scan leaves its
sample counter at 0 and its accumulator at the zero-initialized value, the
guarded normalization performs no division (the accumulator stays 0), and the
compositor step for that effect leaves the final color unchanged. -/
theorem claim_C4_zero_intensity (smp : Image → Vec2 → Color4) (p : Params) (img : Image)
    (sh px : Vec2) :
    (p.bloom_intensity = 0 →
      (glowScan smp p img sh px).bloom_sample_count = 0
      ∧ (glowScan smp p img sh px).bloom_accum = 0
      ∧ (normalizeGlow (glowScan smp p img sh px)).bloom_accum = 0
      ∧ ∀ f : Color3, compositeBloom p (normalizeGlow (glowScan smp p img sh px)) f = f)
    ∧ (p.halation_intensity = 0 →
      (glowScan smp p img sh px).halation_sample_count = 0
      ∧ (glowScan smp p img sh px).halation_accum = 0
      ∧ (normalizeGlow (glowScan smp p img sh px)).halation_accum = 0
      ∧ ∀ f : Color3, compositeHalation p (normalizeGlow (glowScan smp p img sh px)) f = f)
    ∧ (p.secondary_glow_intensity = 0 →
      (glowScan smp p img sh px).secondary_glow_sample_count = 0
      ∧ (glowScan smp p img sh px).secondary_glow_accum = 0
      ∧ (normalizeGlow (glowScan smp p img sh px)).secondary_glow_accum = 0
      ∧ ∀ f : Color3, compositeSecondaryGlow p (normalizeGlow (glowScan smp p img sh px)) f = f) := by
  refine ⟨fun h => ?_, fun h => ?_, fun h => ?_⟩
  · obtain ⟨ha, hc⟩ := glowScan_bloom_zero smp p img sh px (Or.inl (le_of_eq h))
    have hn : (normalizeGlow (glowScan smp p img sh px)).bloom_accum = 0 := by
      rw [normalizeGlow_bloom_accum, hc, if_neg (lt_irrefl 0), ha]
    refine ⟨hc, ha, hn, fun f => ?_⟩
    unfold compositeBloom
    rw [h, if_neg (lt_irrefl 0)]
  · obtain ⟨ha, hc⟩ := glowScan_halation_zero smp p img sh px (Or.inl (le_of_eq h))
    have hn : (normalizeGlow (glowScan smp p img sh px)).halation_accum = 0 := by
      rw [normalizeGlow_halation_accum, hc, if_neg (lt_irrefl 0), ha]
    refine ⟨hc, ha, hn, fun f => ?_⟩
    unfold compositeHalation
    rw [h, if_neg (lt_irrefl 0)]
  · obtain ⟨ha, hc⟩ := glowScan_secondary_glow_zero smp p img sh px (Or.inl (le_of_eq h))
    have hn : (normalizeGlow (glowScan smp p img sh px)).secondary_glow_accum = 0 := by
      rw [normalizeGlow_secondary_glow_accum, hc, if_neg (lt_irrefl 0), ha]
    refine ⟨hc, ha, hn, fun f => ?_⟩
    unfold compositeSecondaryGlow
    rw [h, if_neg (lt_irrefl 0)]

/-- Witness for C4 with all three intensities 0 at concrete inputs. -/
theorem claim_C4_witness :
    (glowScan sampleBorder paramsZero imgRed ⟨0.5, 0.5⟩ ⟨0.25, 0.25⟩).bloom_sample_count = 0
    ∧ (normalizeGlow (glowScan sampleBorder paramsZero imgRed ⟨0.5, 0.5⟩ ⟨0.25, 0.25⟩)).halation_accum = 0
    ∧ compositeSecondaryGlow paramsZero
        (normalizeGlow (glowScan sampleBorder paramsZero imgRed ⟨0.5, 0.5⟩ ⟨0.25, 0.25⟩))
        ⟨1, 2, 3⟩ = ⟨1, 2, 3⟩ := by
  have h := claim_C4_zero_intensity sampleBorder paramsZero imgRed ⟨0.5, 0.5⟩ ⟨0.25, 0.25⟩
  exact ⟨(h.1 rfl).1, (h.2.1 rfl).2.2.1, (h.2.2 rfl).2.2.2 ⟨1, 2, 3⟩⟩

/-- C6: the orange shift is applied to the result of the teal shift, blending
toward (1.0, 0.9, 0.7) with weight smoothstep(0.4, 0, luma) * orange_amount
where luma is computed once on the post-contrast color before either blend;
that weight equals orange_amount for luma <= 0, equals 0 for luma >= 0.4, and
is monotonically decreasing in luma (for the nonnegative orange_amount the
parameter invariant guarantees). -/
theorem claim_C6_orange_shift (ops : MathOps) (p : Params) (c : Color3) :
    (gradeColor ops p c
      = lerp3
          (lerp3 (contrastStage ops p c) ⟨0.7, 0.85, 1.0⟩
            (smoothstep 0.5 1.0 (dot3 (contrastStage ops p c) lumaWeights) * p.teal_amount))
          ⟨1.0, 0.9, 0.7⟩
          (smoothstep 0.4 0.0 (dot3 (contrastStage ops p c) lumaWeights) * p.orange_amount))
    ∧ (∀ x : ℚ, x ≤ 0 → smoothstep 0.4 0.0 x * p.orange_amount = p.orange_amount)
    ∧ (∀ x : ℚ, 0.4 ≤ x → smoothstep 0.4 0.0 x * p.orange_amount = 0)
    ∧ (0 ≤ p.orange_amount → ∀ x y : ℚ, x ≤ y →
        smoothstep 0.4 0.0 y * p.orange_amount ≤ smoothstep 0.4 0.0 x * p.orange_amount) := by
  refine ⟨rfl, fun x hx => ?_, fun x hx => ?_, fun ho x y hxy => ?_⟩
  · rw [smoothstep_down_one hx, one_mul]
  · rw [smoothstep_down_zero hx, zero_mul]
  · exact mul_le_mul_of_nonneg_right (smoothstep_down_anti hxy) ho

/-- Witness for C6: the weight facts evaluated at orange_amount 0.3 and
concrete luma values. -/
theorem claim_C6_witness :
    smoothstep 0.4 0.0 (-1 : ℚ) * ({ paramsZero with orange_amount := 0.3 } : Params).orange_amount
        = ({ paramsZero with orange_amount := 0.3 } : Params).orange_amount
    ∧ smoothstep 0.4 0.0 (0.5 : ℚ) * ({ paramsZero with orange_amount := 0.3 } : Params).orange_amount = 0
    ∧ smoothstep 0.4 0.0 (0.2 : ℚ) * ({ paramsZero with orange_amount := 0.3 } : Params).orange_amount
        ≤ smoothstep 0.4 0.0 (0.1 : ℚ) * ({ paramsZero with orange_amount := 0.3 } : Params).orange_amount := by
  have h := claim_C6_orange_shift opsA { paramsZero with orange_amount := 0.3 } ⟨0, 0, 0⟩
  exact ⟨h.2.1 (-1) (by norm_num), h.2.2.1 0.5 (by norm_num), h.2.2.2 (by decide) 0.1 0.2 (by norm_num)⟩

/-- C7: with teal, orange, the three glow intensities, grain and shake all 0
and contrast = 1 (pow x 1 = x, as the spec's identity-contrast contract
states), the output equals the Border-sampled input at the base coordinate
exactly -- RGB unchanged, alpha preserved -- independent of elapsed_time,
for any input image whose channels lie in [0,1]. -/
theorem claim_C7_noop (ops : MathOps) (p : Params) (img : Image) (uv_size : Vec2)
    (elapsed_time : ℚ) (uv : Vec2)
    (hpow : ∀ x : ℚ, ops.pow x 1 = x)
    (himg : ∀ q : Vec2, 0 ≤ (img q).r ∧ (img q).r ≤ 1 ∧ 0 ≤ (img q).g ∧ (img q).g ≤ 1
      ∧ 0 ≤ (img q).b ∧ (img q).b ≤ 1)
    (hc : p.contrast = 1) (ht : p.teal_amount = 0) (ho : p.orange_amount = 0)
    (hb : p.bloom_intensity = 0) (hh : p.halation_intensity = 0)
    (hs : p.secondary_glow_intensity = 0) (hg : p.grain_intensity = 0)
    (hsi : p.shake_intensity = 0) :
    mainImage ops p img uv_size elapsed_time uv = sampleBorder img uv := by
  have h0 : shakeOffset ops p elapsed_time = ⟨0, 0⟩ := by
    unfold shakeOffset
    rw [hsi, if_neg (lt_irrefl 0)]
  have hsh : shakenUV ops p elapsed_time uv = uv := by
    unfold shakenUV
    rw [h0]
    ext <;> simp
  have hcb : ∀ st f, compositeBloom p st f = f := by
    intro st f
    unfold compositeBloom
    rw [hb, if_neg (lt_irrefl 0)]
  have hch : ∀ st f, compositeHalation p st f = f := by
    intro st f
    unfold compositeHalation
    rw [hh, if_neg (lt_irrefl 0)]
  have hcs : ∀ st f, compositeSecondaryGlow p st f = f := by
    intro st f
    unfold compositeSecondaryGlow
    rw [hs, if_neg (lt_irrefl 0)]
  have hgrade : ∀ c : Color3, gradeColor ops p c = c := by
    intro c
    have hcs0 : contrastStage ops p c = c := by
      unfold contrastStage
      rw [hc]
      ext
      · exact hpow c.r
      · exact hpow c.g
      · exact hpow c.b
    simp only [gradeColor]
    rw [hcs0, ht, ho, mul_zero, mul_zero, lerp3_zero, lerp3_zero]
  unfold mainImage
  simp only [filmLookShader]
  rw [hsh, hcb, hch, hcs, hgrade, hg, mul_zero, addScalar_zero]
  have hbounds : 0 ≤ (sampleBorder img uv).r ∧ (sampleBorder img uv).r ≤ 1
      ∧ 0 ≤ (sampleBorder img uv).g ∧ (sampleBorder img uv).g ≤ 1
      ∧ 0 ≤ (sampleBorder img uv).b ∧ (sampleBorder img uv).b ≤ 1 := by
    unfold sampleBorder
    split
    · exact himg uv
    · norm_num
  obtain ⟨b1, b2, b3, b4, b5, b6⟩ := hbounds
  ext
  · show clampQ (sampleBorder img uv).rgb.r 0 1 = (sampleBorder img uv).r
    unfold clampQ Color4.rgb
    rw [max_eq_left b1, min_eq_left b2]
  · show clampQ (sampleBorder img uv).rgb.g 0 1 = (sampleBorder img uv).g
    unfold clampQ Color4.rgb
    rw [max_eq_left b3, min_eq_left b4]
  · show clampQ (sampleBorder img uv).rgb.b 0 1 = (sampleBorder img uv).b
    unfold clampQ Color4.rgb
    rw [max_eq_left b5, min_eq_left b6]
  · rfl

lemma imgGrayA_bounds : ∀ q : Vec2, 0 ≤ (imgGrayA q).r ∧ (imgGrayA q).r ≤ 1
    ∧ 0 ≤ (imgGrayA q).g ∧ (imgGrayA q).g ≤ 1 ∧ 0 ≤ (imgGrayA q).b ∧ (imgGrayA q).b ≤ 1 := by
  intro q
  refine ⟨?_, ?_, ?_, ?_, ?_, ?_⟩ <;> norm_num [imgGrayA]

/-- Witness for C7: the no-op configuration on a concrete constant image
returns exactly that image's color. -/
theorem claim_C7_witness :
    mainImage opsA paramsZero imgGrayA ⟨4, 4⟩ 7 ⟨0.5, 0.5⟩ = sampleBorder imgGrayA ⟨0.5, 0.5⟩ :=
  claim_C7_noop opsA paramsZero imgGrayA ⟨4, 4⟩ 7 ⟨0.5, 0.5⟩ (fun x => rfl)
    imgGrayA_bounds rfl rfl rfl rfl rfl rfl rfl rfl

/-- C10: for every effect with positive intensity and radius r >= 0, after the
shared scan the effect's sample counter equals (2r+1)^2 and its accumulator
equals the sum of weight * (optionally tinted) sample color over exactly the
integer offsets (x, y) with |x| <= r and |y| <= r (the square Icc box), so the
guarded division yields the mean over the effect's own (2r+1)^2 samples,
regardless of the other two effects' radii. -/
theorem claim_C10_scan_box (smp : Image → Vec2 → Color4) (p : Params) (img : Image)
    (sh px : Vec2) :
    (0 < p.bloom_intensity → 0 ≤ p.bloom_radius →
      (glowScan smp p img sh px).bloom_sample_count = (2 * (p.bloom_radius : ℚ) + 1) ^ 2
      ∧ (glowScan smp p img sh px).bloom_accum
          = ∑ x ∈ Finset.Icc (-p.bloom_radius) p.bloom_radius,
              ∑ y ∈ Finset.Icc (-p.bloom_radius) p.bloom_radius, bloomTerm smp p img sh px (x, y)
      ∧ (normalizeGlow (glowScan smp p img sh px)).bloom_accum
          = (∑ x ∈ Finset.Icc (-p.bloom_radius) p.bloom_radius,
              ∑ y ∈ Finset.Icc (-p.bloom_radius) p.bloom_radius,
                bloomTerm smp p img sh px (x, y)).divScalar ((2 * (p.bloom_radius : ℚ) + 1) ^ 2))
    ∧ (0 < p.halation_intensity → 0 ≤ p.halation_radius →
      (glowScan smp p img sh px).halation_sample_count = (2 * (p.halation_radius : ℚ) + 1) ^ 2
      ∧ (glowScan smp p img sh px).halation_accum
          = ∑ x ∈ Finset.Icc (-p.halation_radius) p.halation_radius,
              ∑ y ∈ Finset.Icc (-p.halation_radius) p.halation_radius, halationTerm smp p img sh px (x, y)
      ∧ (normalizeGlow (glowScan smp p img sh px)).halation_accum
          = (∑ x ∈ Finset.Icc (-p.halation_radius) p.halation_radius,
              ∑ y ∈ Finset.Icc (-p.halation_radius) p.halation_radius,
                halationTerm smp p img sh px (x, y)).divScalar ((2 * (p.halation_radius : ℚ) + 1) ^ 2))
    ∧ (0 < p.secondary_glow_intensity → 0 ≤ p.secondary_glow_radius →
      (glowScan smp p img sh px).secondary_glow_sample_count
          = (2 * (p.secondary_glow_radius : ℚ) + 1) ^ 2
      ∧ (glowScan smp p img sh px).secondary_glow_accum
          = ∑ x ∈ Finset.Icc (-p.secondary_glow_radius) p.secondary_glow_radius,
              ∑ y ∈ Finset.Icc (-p.secondary_glow_radius) p.secondary_glow_radius,
                secondaryGlowTerm smp p img sh px (x, y)
      ∧ (normalizeGlow (glowScan smp p img sh px)).secondary_glow_accum
          = (∑ x ∈ Finset.Icc (-p.secondary_glow_radius) p.secondary_glow_radius,
              ∑ y ∈ Finset.Icc (-p.secondary_glow_radius) p.secondary_glow_radius,
                secondaryGlowTerm smp p img sh px (x, y)).divScalar
              ((2 * (p.secondary_glow_radius : ℚ) + 1) ^ 2)) := by
  refine ⟨fun hI hr => ?_, fun hI hr => ?_, fun hI hr => ?_⟩
  · have hcount := glowScan_bloom_count_eq smp p img sh px hI hr
    have haccum := glowScan_bloom_accum_eq smp p img sh px hI
    refine ⟨hcount, haccum, ?_⟩
    rw [normalizeGlow_bloom_accum, hcount, if_pos (sq_radius_pos _ hr), haccum]
  · have hcount := glowScan_halation_count_eq smp p img sh px hI hr
    have haccum := glowScan_halation_accum_eq smp p img sh px hI
    refine ⟨hcount, haccum, ?_⟩
    rw [normalizeGlow_halation_accum, hcount, if_pos (sq_radius_pos _ hr), haccum]
  · have hcount := glowScan_secondary_glow_count_eq smp p img sh px hI hr
    have haccum := glowScan_secondary_glow_accum_eq smp p img sh px hI
    refine ⟨hcount, haccum, ?_⟩
    rw [normalizeGlow_secondary_glow_accum, hcount, if_pos (sq_radius_pos _ hr), haccum]

/-- Witness for C10: with bloom radius 1 the bloom counter is exactly 9. -/
theorem claim_C10_witness :
    (glowScan sampleBorder pBloom imgGrayA ⟨0.5, 0.5⟩ ⟨0.1, 0.1⟩).bloom_sample_count = 9 := by
  have h := ((claim_C10_scan_box sampleBorder pBloom imgGrayA ⟨0.5, 0.5⟩ ⟨0.1, 0.1⟩).1
    (by norm_num [pBloom]) (by norm_num [pBloom])).1
  rw [h]
  norm_num [pBloom]

/-- C8: for sampling that returns the same color C at every scanned coordinate
(a spatially uniform input away from the border), each enabled effect's
normalized accumulator equals smoothstep(threshold, 1, luma(C)) times C
(tinted by (1.0,0.2,0.1) for halation and (0.6,0.8,1.0) for secondary glow,
untinted for bloom), independent of the effect's radius. -/
theorem claim_C8_uniform_mean (smp : Image → Vec2 → Color4) (p : Params) (img : Image)
    (sh px : Vec2) (C : Color4)
    (hC : ∀ xy ∈ scanOffsets (maxRadiusForLoop p), smp img (coordOf sh px xy) = C) :
    (0 < p.bloom_intensity → 0 ≤ p.bloom_radius →
      (normalizeGlow (glowScan smp p img sh px)).bloom_accum
        = smoothstep p.bloom_threshold 1.0 (dot3 C.rgb lumaWeights) • C.rgb)
    ∧ (0 < p.halation_intensity → 0 ≤ p.halation_radius →
      (normalizeGlow (glowScan smp p img sh px)).halation_accum
        = smoothstep p.halation_threshold 1.0 (dot3 C.rgb lumaWeights) • (C.rgb * ⟨1.0, 0.2, 0.1⟩))
    ∧ (0 < p.secondary_glow_intensity → 0 ≤ p.secondary_glow_radius →
      (normalizeGlow (glowScan smp p img sh px)).secondary_glow_accum
        = smoothstep p.secondary_glow_threshold 1.0 (dot3 C.rgb lumaWeights) • (C.rgb * ⟨0.6, 0.8, 1.0⟩)) := by
  have hconst : ∀ (r : ℤ), r ≤ maxRadiusForLoop p →
      ∀ x ∈ Finset.Icc (-r) r, ∀ y ∈ Finset.Icc (-r) r,
        sampleColorAt smp img sh px (x, y) = C.rgb := by
    intro r hrR x hx y hy
    rw [Finset.mem_Icc] at hx hy
    have hxy : (x, y) ∈ scanOffsets (maxRadiusForLoop p) := by
      rw [mem_scanOffsets]
      exact ⟨by omega, by omega, by omega, by omega⟩
    unfold sampleColorAt
    rw [hC (x, y) hxy]
  refine ⟨fun hI hr => ?_, fun hI hr => ?_, fun hI hr => ?_⟩
  · rw [normalizeGlow_bloom_accum, glowScan_bloom_count_eq smp p img sh px hI hr,
      if_pos (sq_radius_pos _ hr), glowScan_bloom_accum_eq smp p img sh px hI]
    have hterm : ∀ x ∈ Finset.Icc (-p.bloom_radius) p.bloom_radius,
        ∀ y ∈ Finset.Icc (-p.bloom_radius) p.bloom_radius,
        bloomTerm smp p img sh px (x, y)
          = smoothstep p.bloom_threshold 1.0 (dot3 C.rgb lumaWeights) • C.rgb := by
      intro x hx y hy
      unfold bloomTerm
      rw [hconst p.bloom_radius (bloom_radius_le_max p) x hx y hy]
    rw [Finset.sum_congr rfl (fun x hx => Finset.sum_congr rfl (fun y hy => hterm x hx y hy))]
    rw [Finset.sum_const, Finset.sum_const, smul_smul, ← Nat.cast_smul_eq_nsmul ℚ]
    rw [show (((Finset.Icc (-p.bloom_radius) p.bloom_radius).card
        * (Finset.Icc (-p.bloom_radius) p.bloom_radius).card : ℕ) : ℚ)
        = (2 * (p.bloom_radius : ℚ) + 1) ^ 2 by
      rw [Nat.cast_mul, card_cast_Icc _ hr]
      ring]
    exact divScalar_smul _ _ (ne_of_gt (sq_radius_pos _ hr))
  · rw [normalizeGlow_halation_accum, glowScan_halation_count_eq smp p img sh px hI hr,
      if_pos (sq_radius_pos _ hr), glowScan_halation_accum_eq smp p img sh px hI]
    have hterm : ∀ x ∈ Finset.Icc (-p.halation_radius) p.halation_radius,
        ∀ y ∈ Finset.Icc (-p.halation_radius) p.halation_radius,
        halationTerm smp p img sh px (x, y)
          = smoothstep p.halation_threshold 1.0 (dot3 C.rgb lumaWeights) • (C.rgb * ⟨1.0, 0.2, 0.1⟩) := by
      intro x hx y hy
      unfold halationTerm
      rw [hconst p.halation_radius (halation_radius_le_max p) x hx y hy]
    rw [Finset.sum_congr rfl (fun x hx => Finset.sum_congr rfl (fun y hy => hterm x hx y hy))]
    rw [Finset.sum_const, Finset.sum_const, smul_smul, ← Nat.cast_smul_eq_nsmul ℚ]
    rw [show (((Finset.Icc (-p.halation_radius) p.halation_radius).card
        * (Finset.Icc (-p.halation_radius) p.halation_radius).card : ℕ) : ℚ)
        = (2 * (p.halation_radius : ℚ) + 1) ^ 2 by
      rw [Nat.cast_mul, card_cast_Icc _ hr]
      ring]
    exact divScalar_smul _ _ (ne_of_gt (sq_radius_pos _ hr))
  · rw [normalizeGlow_secondary_glow_accum, glowScan_secondary_glow_count_eq smp p img sh px hI hr,
      if_pos (sq_radius_pos _ hr), glowScan_secondary_glow_accum_eq smp p img sh px hI]
    have hterm : ∀ x ∈ Finset.Icc (-p.secondary_glow_radius) p.secondary_glow_radius,
        ∀ y ∈ Finset.Icc (-p.secondary_glow_radius) p.secondary_glow_radius,
        secondaryGlowTerm smp p img sh px (x, y)
          = smoothstep p.secondary_glow_threshold 1.0 (dot3 C.rgb lumaWeights) • (C.rgb * ⟨0.6, 0.8, 1.0⟩) := by
      intro x hx y hy
      unfold secondaryGlowTerm
      rw [hconst p.secondary_glow_radius (secondary_glow_radius_le_max p) x hx y hy]
    rw [Finset.sum_congr rfl (fun x hx => Finset.sum_congr rfl (fun y hy => hterm x hx y hy))]
    rw [Finset.sum_const, Finset.sum_const, smul_smul, ← Nat.cast_smul_eq_nsmul ℚ]
    rw [show (((Finset.Icc (-p.secondary_glow_radius) p.secondary_glow_radius).card
        * (Finset.Icc (-p.secondary_glow_radius) p.secondary_glow_radius).card : ℕ) : ℚ)
        = (2 * (p.secondary_glow_radius : ℚ) + 1) ^ 2 by
      rw [Nat.cast_mul, card_cast_Icc _ hr]
      ring]
    exact divScalar_smul _ _ (ne_of_gt (sq_radius_pos _ hr))

/-- Witness for C8: on a constant image whose whole radius-1 neighborhood of
(0.5, 0.5) stays inside the frame, the normalized bloom accumulator equals the
weighted constant. -/
theorem claim_C8_witness :
    (normalizeGlow (glowScan sampleBorder pBloom (fun _ => grayAColor) ⟨0.5, 0.5⟩ ⟨0.1, 0.1⟩)).bloom_accum
      = smoothstep pBloom.bloom_threshold 1.0 (dot3 grayAColor.rgb lumaWeights) • grayAColor.rgb :=
  (claim_C8_uniform_mean sampleBorder pBloom (fun _ => grayAColor) ⟨0.5, 0.5⟩ ⟨0.1, 0.1⟩ grayAColor
    (by decide)).1 (by norm_num [pBloom]) (by norm_num [pBloom])

/-! ### A negative radius makes an effect inert -/

lemma glowDelta_bloom_irrel (smp : Image → Vec2 → Color4) (p : Params) (img : Image)
    (sh px : Vec2) (xy : ℤ × ℤ) (h : p.bloom_radius < 0) :
    glowDelta smp p img sh px xy = glowDelta smp { p with bloom_intensity := 0 } img sh px xy := by
  have hc1 : ¬(0 < p.bloom_intensity ∧ |xy.1| ≤ p.bloom_radius ∧ |xy.2| ≤ p.bloom_radius) := by
    rintro ⟨h1, h2, h3⟩
    have := abs_nonneg xy.1
    omega
  unfold glowDelta
  rw [if_neg hc1, if_neg hc1]
  rfl

lemma glowDelta_halation_irrel (smp : Image → Vec2 → Color4) (p : Params) (img : Image)
    (sh px : Vec2) (xy : ℤ × ℤ) (h : p.halation_radius < 0) :
    glowDelta smp p img sh px xy = glowDelta smp { p with halation_intensity := 0 } img sh px xy := by
  have hc1 : ¬(0 < p.halation_intensity ∧ |xy.1| ≤ p.halation_radius ∧ |xy.2| ≤ p.halation_radius) := by
    rintro ⟨h1, h2, h3⟩
    have := abs_nonneg xy.1
    omega
  unfold glowDelta
  rw [if_neg hc1, if_neg hc1]
  rfl

lemma glowDelta_secondary_glow_irrel (smp : Image → Vec2 → Color4) (p : Params) (img : Image)
    (sh px : Vec2) (xy : ℤ × ℤ) (h : p.secondary_glow_radius < 0) :
    glowDelta smp p img sh px xy
      = glowDelta smp { p with secondary_glow_intensity := 0 } img sh px xy := by
  have hc1 : ¬(0 < p.secondary_glow_intensity ∧ |xy.1| ≤ p.secondary_glow_radius
      ∧ |xy.2| ≤ p.secondary_glow_radius) := by
    rintro ⟨h1, h2, h3⟩
    have := abs_nonneg xy.1
    omega
  unfold glowDelta
  rw [if_neg hc1, if_neg hc1]
  rfl

lemma glowScan_bloom_irrel (smp : Image → Vec2 → Color4) (p : Params) (img : Image)
    (sh px : Vec2) (h : p.bloom_radius < 0) :
    glowScan smp p img sh px = glowScan smp { p with bloom_intensity := 0 } img sh px := by
  rw [glowScan_eq_sum, glowScan_eq_sum]
  have hR : maxRadiusForLoop ({ p with bloom_intensity := 0 } : Params) = maxRadiusForLoop p := rfl
  rw [hR]
  congr 1
  exact List.map_congr_left (fun xy _ => glowDelta_bloom_irrel smp p img sh px xy h)

lemma glowScan_halation_irrel (smp : Image → Vec2 → Color4) (p : Params) (img : Image)
    (sh px : Vec2) (h : p.halation_radius < 0) :
    glowScan smp p img sh px = glowScan smp { p with halation_intensity := 0 } img sh px := by
  rw [glowScan_eq_sum, glowScan_eq_sum]
  have hR : maxRadiusForLoop ({ p with halation_intensity := 0 } : Params) = maxRadiusForLoop p := rfl
  rw [hR]
  congr 1
  exact List.map_congr_left (fun xy _ => glowDelta_halation_irrel smp p img sh px xy h)

lemma glowScan_secondary_glow_irrel (smp : Image → Vec2 → Color4) (p : Params) (img : Image)
    (sh px : Vec2) (h : p.secondary_glow_radius < 0) :
    glowScan smp p img sh px
      = glowScan smp { p with secondary_glow_intensity := 0 } img sh px := by
  rw [glowScan_eq_sum, glowScan_eq_sum]
  have hR : maxRadiusForLoop ({ p with secondary_glow_intensity := 0 } : Params)
      = maxRadiusForLoop p := rfl
  rw [hR]
  congr 1
  exact List.map_congr_left (fun xy _ => glowDelta_secondary_glow_irrel smp p img sh px xy h)

/-- C9 (amended): for every effect whose radius is STRICTLY negative the
per-effect cutoff abs(offset) <= radius fails at every scanned offset, the
effect contributes nothing, and the output equals the output with that effect
disabled; at radius = 0 the cutoff still admits the center offset (0,0), so a
radius of exactly zero does NOT make the effect's contribution zero. -/
theorem claim_C9_negative_radius (ops : MathOps) (p : Params) (img : Image) (uv_size : Vec2)
    (elapsed_time : ℚ) (uv : Vec2) :
    (p.bloom_radius < 0 →
      mainImage ops p img uv_size elapsed_time uv
        = mainImage ops { p with bloom_intensity := 0 } img uv_size elapsed_time uv)
    ∧ (p.halation_radius < 0 →
      mainImage ops p img uv_size elapsed_time uv
        = mainImage ops { p with halation_intensity := 0 } img uv_size elapsed_time uv)
    ∧ (p.secondary_glow_radius < 0 →
      mainImage ops p img uv_size elapsed_time uv
        = mainImage ops { p with secondary_glow_intensity := 0 } img uv_size elapsed_time uv) := by
  refine ⟨fun h => ?_, fun h => ?_, fun h => ?_⟩
  · have hsh : shakenUV ops ({ p with bloom_intensity := 0 }) elapsed_time uv
        = shakenUV ops p elapsed_time uv := rfl
    unfold mainImage
    simp only [filmLookShader]
    rw [hsh, ← glowScan_bloom_irrel sampleBorder p img (shakenUV ops p elapsed_time uv)
      ⟨1 / uv_size.x, 1 / uv_size.y⟩ h]
    have hacc : (normalizeGlow (glowScan sampleBorder p img (shakenUV ops p elapsed_time uv)
        ⟨1 / uv_size.x, 1 / uv_size.y⟩)).bloom_accum = 0 := by
      obtain ⟨ha, hc⟩ := glowScan_bloom_zero sampleBorder p img _ _ (Or.inr h)
      rw [normalizeGlow_bloom_accum, hc, if_neg (lt_irrefl 0), ha]
    have hcbL : ∀ f : Color3, compositeBloom p (normalizeGlow (glowScan sampleBorder p img
        (shakenUV ops p elapsed_time uv) ⟨1 / uv_size.x, 1 / uv_size.y⟩)) f = f := by
      intro f
      unfold compositeBloom
      rw [hacc, smul_zero, add_zero, ite_self]
    have hcbR : ∀ (st : GlowState) (f : Color3),
        compositeBloom ({ p with bloom_intensity := 0 }) st f = f := by
      intro st f
      unfold compositeBloom
      rw [if_neg (by simp : ¬ (0 : ℚ) < ({ p with bloom_intensity := 0 } : Params).bloom_intensity)]
    rw [hcbL, hcbR]
    rfl
  · have hsh : shakenUV ops ({ p with halation_intensity := 0 }) elapsed_time uv
        = shakenUV ops p elapsed_time uv := rfl
    unfold mainImage
    simp only [filmLookShader]
    rw [hsh, ← glowScan_halation_irrel sampleBorder p img (shakenUV ops p elapsed_time uv)
      ⟨1 / uv_size.x, 1 / uv_size.y⟩ h]
    have hacc : (normalizeGlow (glowScan sampleBorder p img (shakenUV ops p elapsed_time uv)
        ⟨1 / uv_size.x, 1 / uv_size.y⟩)).halation_accum = 0 := by
      obtain ⟨ha, hc⟩ := glowScan_halation_zero sampleBorder p img _ _ (Or.inr h)
      rw [normalizeGlow_halation_accum, hc, if_neg (lt_irrefl 0), ha]
    have hchL : ∀ f : Color3, compositeHalation p (normalizeGlow (glowScan sampleBorder p img
        (shakenUV ops p elapsed_time uv) ⟨1 / uv_size.x, 1 / uv_size.y⟩)) f = f := by
      intro f
      unfold compositeHalation
      rw [hacc, smul_zero, blendScreen_zero, ite_self]
    have hchR : ∀ (st : GlowState) (f : Color3),
        compositeHalation ({ p with halation_intensity := 0 }) st f = f := by
      intro st f
      unfold compositeHalation
      rw [if_neg (by simp : ¬ (0 : ℚ) < ({ p with halation_intensity := 0 } : Params).halation_intensity)]
    rw [hchL, hchR]
    rfl
  · have hsh : shakenUV ops ({ p with secondary_glow_intensity := 0 }) elapsed_time uv
        = shakenUV ops p elapsed_time uv := rfl
    unfold mainImage
    simp only [filmLookShader]
    rw [hsh, ← glowScan_secondary_glow_irrel sampleBorder p img (shakenUV ops p elapsed_time uv)
      ⟨1 / uv_size.x, 1 / uv_size.y⟩ h]
    have hacc : (normalizeGlow (glowScan sampleBorder p img (shakenUV ops p elapsed_time uv)
        ⟨1 / uv_size.x, 1 / uv_size.y⟩)).secondary_glow_accum = 0 := by
      obtain ⟨ha, hc⟩ := glowScan_secondary_glow_zero sampleBorder p img _ _ (Or.inr h)
      rw [normalizeGlow_secondary_glow_accum, hc, if_neg (lt_irrefl 0), ha]
    have hcsL : ∀ f : Color3, compositeSecondaryGlow p (normalizeGlow (glowScan sampleBorder p img
        (shakenUV ops p elapsed_time uv) ⟨1 / uv_size.x, 1 / uv_size.y⟩)) f = f := by
      intro f
      unfold compositeSecondaryGlow
      rw [hacc, smul_zero, blendScreen_zero, ite_self]
    have hcsR : ∀ (st : GlowState) (f : Color3),
        compositeSecondaryGlow ({ p with secondary_glow_intensity := 0 }) st f = f := by
      intro st f
      unfold compositeSecondaryGlow
      rw [if_neg (by simp : ¬ (0 : ℚ) < ({ p with secondary_glow_intensity := 0 } : Params).secondary_glow_intensity)]
    rw [hcsL, hcsR]
    rfl

/-- A parameter set with bloom enabled but bloom_radius = -1. -/
def pNegRad : Params := ⟨1, 0, 0, 1, 0, -1, 0, 0, 0, 0, 0, 0, 0, 0, 0⟩

/-- A parameter set with bloom enabled and bloom_radius = 0. -/
def pBloom0 : Params := ⟨1, 0, 0, 1, 0, 0, 0, 0, 0, 0, 0, 0, 0, 0, 0⟩

/-- Witness for C9 (amended) at bloom_radius = -1. -/
theorem claim_C9_witness :
    mainImage opsA pNegRad imgGrayA ⟨4, 4⟩ 0 ⟨0.5, 0.5⟩
      = mainImage opsA { pNegRad with bloom_intensity := 0 } imgGrayA ⟨4, 4⟩ 0 ⟨0.5, 0.5⟩ :=
  (claim_C9_negative_radius opsA pNegRad imgGrayA ⟨4, 4⟩ 0 ⟨0.5, 0.5⟩).1 (by decide)

/-- C9 counterexample: at bloom_radius = 0 (non-positive) with positive bloom
intensity, the cutoff abs(offset) <= 0 still admits the center offset, so the
effect contributes a nonzero amount: the output differs from the output with
bloom disabled, refuting the claim for non-positive (as opposed to strictly
negative) radii. -/
theorem claim_C9_counterexample :
    ¬ (mainImage opsA pBloom0 imgGrayA ⟨1, 1⟩ 0 ⟨0.5, 0.5⟩
        = mainImage opsA { pBloom0 with bloom_intensity := 0 } imgGrayA ⟨1, 1⟩ 0 ⟨0.5, 0.5⟩) := by
  decide

/-- C3 (amended): the two shader variants differ in BOTH the sampler policy
(Border vs Clamp) and the pixel-size convention (1/uv_size vs uv_size, i.e.
the .effect variant never takes a reciprocal): when the .effect variant is fed
the componentwise reciprocal pixel size and every sample of the pixel -- the
base sample and the whole scan -- stays inside the unit square, where Border
and Clamp sampling agree, the two variants produce the same output. -/
theorem claim_C3_variant_equiv (ops : MathOps) (p : Params) (img : Image) (uv_size : Vec2)
    (elapsed_time : ℚ) (uv : Vec2)
    (h0 : insideUnit (shakenUV ops p elapsed_time uv))
    (h : ∀ xy ∈ scanOffsets (maxRadiusForLoop p),
      insideUnit (coordOf (shakenUV ops p elapsed_time uv) ⟨1 / uv_size.x, 1 / uv_size.y⟩ xy)) :
    mainImage ops p img uv_size elapsed_time uv
      = effectPixelShader ops p img ⟨1 / uv_size.x, 1 / uv_size.y⟩ elapsed_time uv := by
  unfold mainImage effectPixelShader
  exact filmLookShader_congr sampleBorder sampleClamp ops p img ⟨1 / uv_size.x, 1 / uv_size.y⟩
    elapsed_time uv (sampleBorder_eq_sampleClamp h0)
    (fun xy hxy => sampleBorder_eq_sampleClamp (h xy hxy))

/-- Witness for C3 (amended): on a ramp image with all radius-1 samples inside
the frame, the cpp variant at uv_size (4,4) equals the .effect variant fed the
reciprocal (1/4, 1/4). -/
theorem claim_C3_witness :
    mainImage opsA pBloom imgRamp ⟨4, 4⟩ 0 ⟨0.5, 0.5⟩
      = effectPixelShader opsA pBloom imgRamp ⟨1 / (4 : ℚ), 1 / (4 : ℚ)⟩ 0 ⟨0.5, 0.5⟩ :=
  claim_C3_variant_equiv opsA pBloom imgRamp ⟨4, 4⟩ 0 ⟨0.5, 0.5⟩ (by decide) (by decide)

set_option maxRecDepth 100000 in
/-- C3 counterexample: with the SAME uniforms (image, uv_size = (4,4),
parameters, coordinate, time) the two variants disagree -- the .effect variant
multiplies offsets by uv_size itself and clamps its out-of-frame samples --
so the two variants are not numerically equivalent as claimed. -/
theorem claim_C3_counterexample :
    ¬ (mainImage opsA pBloom imgRamp ⟨4, 4⟩ 0 ⟨0.5, 0.5⟩
        = effectPixelShader opsA pBloom imgRamp ⟨4, 4⟩ 0 ⟨0.5, 0.5⟩) := by
  decide
